import Mathlib

/-!
Shallow embedding of the "Neboskreb" tower-stacking game engine.

The source is a React component (`App`) whose game logic lives in the
handlers `updateHookPosition`, `startGame`, `nextLevel`, `handleDrop`,
`endGame`, `calculateStars`, together with the constants and the level
table from `constants.ts` / `types.ts`.  React state hooks are embedded
as explicit state passing over a `Session` record; the horizontal hook
position is an input to `handleDrop` (in the source it is a piece of
state written only by the animation loop and read by `handleDrop`).
Geometry (percentages, widths) is embedded over `ℚ`; the real-valued
sine of the hook oscillator is embedded over `ℝ`.

Presentation-only state (colors, camera offset, feedback label, block
ids from `Date.now()`) is omitted: no claim mentions it and the spec
declares it out of scope.
-/

namespace Neboskreb

/-- `GameState` enum from `types.ts`. -/
inductive GameState where
  | MENU
  | PLAYING
  | LEVEL_COMPLETE
  | GAME_OVER
deriving DecidableEq, Repr

/-- `Block` from `types.ts` (logic-relevant fields: `width`, `x` = center
percentage, `y` = vertical index, `isPerfect`; `id` and `color` are
presentation-only and omitted). -/
structure Block where
  width : ℚ
  x : ℚ
  y : ℕ
  isPerfect : Bool
deriving DecidableEq, Repr

/-- `LevelConfig` from `types.ts` (without the color palette). -/
structure LevelConfig where
  levelNumber : ℕ
  targetBlocks : ℕ
  initialWidth : ℚ
  baseSpeed : ℚ
deriving DecidableEq, Repr

/-- `PERFECT_TOLERANCE = 3` from `constants.ts`. -/
def PERFECT_TOLERANCE : ℚ := 3

/-- `MAX_LEVELS = 10` from `constants.ts`. -/
def MAX_LEVELS : ℕ := 10

/-- The generator body of the `LEVELS` array from `constants.ts`:
`levelNum = i + 1`, `targetBlocks = 5 + levelNum * 2`,
`initialWidth = max(20, 50 - levelNum * 2)`, `baseSpeed = 1 + levelNum * 0.2`. -/
def mkLevel (i : ℕ) : LevelConfig :=
  { levelNumber := i + 1
    targetBlocks := 5 + (i + 1) * 2
    initialWidth := max 20 (50 - ((i : ℚ) + 1) * 2)
    baseSpeed := 1 + ((i : ℚ) + 1) * 0.2 }

/-- `LEVELS` from `constants.ts`: `Array.from({length: MAX_LEVELS}, ...)`. -/
def LEVELS : List LevelConfig := (List.range MAX_LEVELS).map mkLevel

/-- `LEVELS[currentLevelIdx]` (App line 26).  The index is always in
range in the running program; out-of-range reads fall back to the
level-1 config so the function is total. -/
def currentLevelConfig (i : ℕ) : LevelConfig := LEVELS.getD i (mkLevel 0)

/-- The game-logic state of the `App` component: the `useState` hooks
`gameState`, `currentLevelIdx`, `blocks`, `currentBlockWidth`
(the pending width of the next block), `score`, `combo`. -/
structure Session where
  gameState : GameState
  currentLevelIdx : ℕ
  blocks : List Block
  currentBlockWidth : ℚ
  score : ℕ
  combo : ℕ
deriving DecidableEq, Repr

/-- `previousBlock` in `handleDrop` (App line 101): the last stacked
block, or the base platform `{x: 50, width: initialWidth + 20}` when the
stack is empty.  Returns the pair `(x, width)`. -/
def prevRef (s : Session) : ℚ × ℚ :=
  match s.blocks.getLast? with
  | some b => (b.x, b.width)
  | none => (50, (currentLevelConfig s.currentLevelIdx).initialWidth + 20)

/-- `absDiff = |currentX - previousBlock.x|` (App lines 103-104). -/
def absDiff (s : Session) (hookX : ℚ) : ℚ := |hookX - (prevRef s).1|

/-- Appending the freshly evaluated block (App lines 153-173): push the
block, make its width the pending width for the next drop, and if the
stack reached `targetBlocks` call `endGame(true)` (state becomes
`LEVEL_COMPLETE`). -/
def placeBlock (s : Session) (b : Block) : Session :=
  { s with
    blocks := s.blocks ++ [b]
    currentBlockWidth := b.width
    gameState :=
      if (s.blocks ++ [b]).length ≥ (currentLevelConfig s.currentLevelIdx).targetBlocks then
        GameState.LEVEL_COMPLETE
      else s.gameState }

/-- `handleDrop` (App lines 98-179).  Not `PLAYING` → no-op.  Total miss
(`absDiff > currentBlockWidth`, line 113) → `endGame(false)` with no
other mutation.  Perfect (`absDiff ≤ PERFECT_TOLERANCE`, line 124) →
combo incremented, score `+ 20 + combo*5` with the pre-drop combo (the
stale closure value at line 128), block of unchanged width snapped to
the previous center.  Otherwise trim: combo reset (line 133, before the
width check), `newWidth = currentBlockWidth - absDiff`; if
`newWidth < 5` → `endGame(false)`; else score `+10` and the block is
placed exactly at the hook position. -/
def handleDrop (s : Session) (hookX : ℚ) : Session :=
  if s.gameState ≠ GameState.PLAYING then s
  else if absDiff s hookX > s.currentBlockWidth then
    { s with gameState := GameState.GAME_OVER }
  else if absDiff s hookX ≤ PERFECT_TOLERANCE then
    placeBlock { s with combo := s.combo + 1, score := s.score + 20 + s.combo * 5 }
      { width := s.currentBlockWidth
        x := (prevRef s).1
        y := s.blocks.length
        isPerfect := true }
  else if s.currentBlockWidth - absDiff s hookX < 5 then
    { s with combo := 0, gameState := GameState.GAME_OVER }
  else
    placeBlock { s with combo := 0, score := s.score + 10 }
      { width := s.currentBlockWidth - absDiff s hookX
        x := hookX
        y := s.blocks.length
        isPerfect := false }

/-- The outcome of one drop evaluation, following exactly the branch
structure of `handleDrop` (App lines 113-150). -/
inductive Outcome where
  | Miss
  | Perfect
  | Good
deriving DecidableEq, Repr

/-- Which branch of `handleDrop` a drop takes: total miss, perfect,
trim-to-below-minimum miss, or good. -/
def dropOutcome (s : Session) (hookX : ℚ) : Outcome :=
  if absDiff s hookX > s.currentBlockWidth then Outcome.Miss
  else if absDiff s hookX ≤ PERFECT_TOLERANCE then Outcome.Perfect
  else if s.currentBlockWidth - absDiff s hookX < 5 then Outcome.Miss
  else Outcome.Good

/-- `startGame` (App lines 62-70): empty stack, zero score and combo,
pending width = the current level's `initialWidth`, state `PLAYING`.
(The `startTimeRef` reset of line 69 concerns the oscillator clock,
modelled separately below.) -/
def startGame (s : Session) : Session :=
  { s with
    blocks := []
    score := 0
    combo := 0
    currentBlockWidth := (currentLevelConfig s.currentLevelIdx).initialWidth
    gameState := GameState.PLAYING }

/-- `nextLevel` (App lines 72-92).  Below the last level the deferred
reset explicitly reads `LEVELS[currentLevelIdx + 1].initialWidth`
(line 84), i.e. the new level's width.  At the last level the code sets
the index to 0 and schedules `setTimeout(startGame, 50)` (line 90);
the `startGame` closure captured there still reads
`currentLevelConfig = LEVELS[currentLevelIdx]` with the OLD index value
of its own render, so the pending width is reset to the PREVIOUS
(last) level's `initialWidth`, not level 0's. -/
def nextLevel (s : Session) : Session :=
  if s.currentLevelIdx < LEVELS.length - 1 then
    { s with
      currentLevelIdx := s.currentLevelIdx + 1
      blocks := []
      score := 0
      combo := 0
      currentBlockWidth := (currentLevelConfig (s.currentLevelIdx + 1)).initialWidth
      gameState := GameState.PLAYING }
  else
    { s with
      currentLevelIdx := 0
      blocks := []
      score := 0
      combo := 0
      currentBlockWidth := (currentLevelConfig s.currentLevelIdx).initialWidth
      gameState := GameState.PLAYING }

/-- `blocks.filter(b => b.isPerfect).length` (App line 192). -/
def perfectCount (s : Session) : ℕ := (s.blocks.filter (fun b => b.isPerfect)).length

/-- `calculateStars` (App lines 185-198). -/
def calculateStars (s : Session) : ℕ :=
  if s.gameState = GameState.GAME_OVER then 0
  else if (perfectCount s : ℚ) / (s.blocks.length : ℚ) ≥ 0.6 then 3
  else if (perfectCount s : ℚ) / (s.blocks.length : ℚ) ≥ 0.3 then 2
  else 1

/-- Session states reachable by the engine: any state reached by a
session reset (`startGame`, also used by `retryLevel`), then closed
under `nextLevel` and drops at arbitrary hook positions. -/
inductive Reachable : Session → Prop where
  | start (s : Session) : Reachable (startGame s)
  | next (s : Session) (h : Reachable s) : Reachable (nextLevel s)
  | drop (s : Session) (x : ℚ) (h : Reachable s) : Reachable (handleDrop s x)

/-- The hook position formula of `updateHookPosition` (App lines 31-44):
`difficultyMultiplier = 1 + blocks.length * 0.05`,
`speed = baseSpeed * difficultyMultiplier * 0.002`,
`x = 50 + Math.sin(time * speed) * 45`. -/
noncomputable def updateHookPosition (cfg : LevelConfig) (blocksPlaced : ℕ) (time : ℝ) : ℝ :=
  50 + Real.sin (time * ((cfg.baseSpeed : ℝ) * (1 + (blocksPlaced : ℝ) * 0.05) * 0.002)) * 45

/-- One tick of `animate` (App lines 47-53): `startTimeRef` is filled on
the first frame (`if (!startTimeRef.current) startTimeRef.current = time`),
and `updateHookPosition` is called with the RAW frame timestamp `time` —
the stored start time is never subtracted.  Returns the updated ref and
the hook position that is set. -/
noncomputable def animateStep (startTimeRef : Option ℝ) (time : ℝ) (cfg : LevelConfig)
    (blocksPlaced : ℕ) : Option ℝ × ℝ :=
  (some (startTimeRef.getD time), updateHookPosition cfg blocksPlaced time)

/-- Modelled from the spec: the hook position with `elapsedTime`
measured from the instant the current session started
(spec §4.2: "elapsedTime is measured from the instant the current
session/level started, not wall-clock global time").  The running code
has no such definition: `animate` passes the raw global frame timestamp. -/
noncomputable def hookPositionSpec (sessionStart time : ℝ) (cfg : LevelConfig)
    (blocksPlaced : ℕ) : ℝ :=
  updateHookPosition cfg blocksPlaced (time - sessionStart)

/-- Scenario A state: level 1, empty stack, pending width 48, fresh session. -/
def sessionA : Session := ⟨GameState.PLAYING, 0, [], 48, 0, 0⟩

/-- Scenario B state: level 1 after one perfect drop (score 20, combo 1). -/
def sessionB : Session := ⟨GameState.PLAYING, 0, [⟨48, 50, 0, true⟩], 48, 20, 1⟩

/-- A mid-session state used to exercise a total miss: one trimmed block
at center 60 of width 38. -/
def sessionC : Session := ⟨GameState.PLAYING, 0, [⟨38, 60, 0, false⟩], 38, 30, 0⟩

/-- A fresh level-1 session that already carries a combo of 1 (as after
a perfect drop on a previous attempt would not persist; the combo here
is set directly to exhibit the total-miss path). -/
def sessionD : Session := ⟨GameState.PLAYING, 0, [], 48, 0, 1⟩

/-- A `LEVEL_COMPLETE` state at the last level (index 9). -/
def sessionLast : Session := ⟨GameState.LEVEL_COMPLETE, 9, [], 30, 100, 0⟩

/-- A `LEVEL_COMPLETE` state at a middle level (index 3). -/
def sessionMid : Session := ⟨GameState.LEVEL_COMPLETE, 3, [], 42, 50, 0⟩

/-- A level-1 session one block short of the 7-block target. -/
def sessionSix : Session :=
  ⟨GameState.PLAYING, 0,
    [⟨48, 50, 0, true⟩, ⟨48, 50, 1, true⟩, ⟨48, 50, 2, true⟩,
     ⟨48, 50, 3, true⟩, ⟨48, 50, 4, true⟩, ⟨48, 50, 5, true⟩], 48, 100, 6⟩

/-- A completed level with one perfect and one good block, perfect first. -/
def sessionPG : Session :=
  ⟨GameState.LEVEL_COMPLETE, 0, [⟨48, 50, 0, true⟩, ⟨38, 60, 1, false⟩], 38, 30, 0⟩

/-- The same completed level with the perfect and good blocks swapped. -/
def sessionGP : Session :=
  ⟨GameState.LEVEL_COMPLETE, 0, [⟨48, 50, 0, false⟩, ⟨38, 60, 1, true⟩], 38, 30, 0⟩

/-- The initial component state (App lines 10-18): menu, level index 0,
empty stack, `currentBlockWidth` 0. -/
def sessionMenu : Session := ⟨GameState.MENU, 0, [], 0, 0, 0⟩

/-- The menu state with the last level selected. -/
def sessionMenuLast : Session := ⟨GameState.MENU, 9, [], 0, 0, 0⟩

/-! ## Branch lemmas for `handleDrop` -/

theorem handleDrop_not_playing (s : Session) (x : ℚ) (h : s.gameState ≠ GameState.PLAYING) :
    handleDrop s x = s := by
  unfold handleDrop
  rw [if_pos h]

theorem handleDrop_total_miss (s : Session) (x : ℚ) (hp : s.gameState = GameState.PLAYING)
    (h : absDiff s x > s.currentBlockWidth) :
    handleDrop s x = { s with gameState := GameState.GAME_OVER } := by
  unfold handleDrop
  rw [if_neg (fun hn => hn hp), if_pos h]

theorem handleDrop_perfect (s : Session) (x : ℚ) (hp : s.gameState = GameState.PLAYING)
    (h1 : ¬ absDiff s x > s.currentBlockWidth) (h2 : absDiff s x ≤ PERFECT_TOLERANCE) :
    handleDrop s x =
      placeBlock { s with combo := s.combo + 1, score := s.score + 20 + s.combo * 5 }
        { width := s.currentBlockWidth
          x := (prevRef s).1
          y := s.blocks.length
          isPerfect := true } := by
  unfold handleDrop
  rw [if_neg (fun hn => hn hp), if_neg h1, if_pos h2]

theorem handleDrop_trim_miss (s : Session) (x : ℚ) (hp : s.gameState = GameState.PLAYING)
    (h1 : ¬ absDiff s x > s.currentBlockWidth) (h2 : ¬ absDiff s x ≤ PERFECT_TOLERANCE)
    (h3 : s.currentBlockWidth - absDiff s x < 5) :
    handleDrop s x = { s with combo := 0, gameState := GameState.GAME_OVER } := by
  unfold handleDrop
  rw [if_neg (fun hn => hn hp), if_neg h1, if_neg h2, if_pos h3]

theorem handleDrop_good (s : Session) (x : ℚ) (hp : s.gameState = GameState.PLAYING)
    (h1 : ¬ absDiff s x > s.currentBlockWidth) (h2 : ¬ absDiff s x ≤ PERFECT_TOLERANCE)
    (h3 : ¬ s.currentBlockWidth - absDiff s x < 5) :
    handleDrop s x =
      placeBlock { s with combo := 0, score := s.score + 10 }
        { width := s.currentBlockWidth - absDiff s x
          x := x
          y := s.blocks.length
          isPerfect := false } := by
  unfold handleDrop
  rw [if_neg (fun hn => hn hp), if_neg h1, if_neg h2, if_neg h3]

/-! ## Claim C1: perfect drops -/

/-- C1.  A drop while Playing with `absDiff ≤ PERFECT_TOLERANCE` (and a
pending width at least the tolerance, as in every reachable state) is a
Perfect drop: the appended block keeps the pending width and is snapped
to the previous block's center, the score grows by exactly
`20 + 5·combo` with the pre-drop combo, and the combo increments. -/
theorem perfect_drop_C1 (s : Session) (x : ℚ)
    (hp : s.gameState = GameState.PLAYING)
    (hw : PERFECT_TOLERANCE ≤ s.currentBlockWidth)
    (hd : absDiff s x ≤ PERFECT_TOLERANCE) :
    (handleDrop s x).blocks
        = s.blocks ++ [⟨s.currentBlockWidth, (prevRef s).1, s.blocks.length, true⟩] ∧
    (handleDrop s x).score = s.score + (20 + 5 * s.combo) ∧
    (handleDrop s x).combo = s.combo + 1 ∧
    (handleDrop s x).currentBlockWidth = s.currentBlockWidth := by
  have h1 : ¬ absDiff s x > s.currentBlockWidth := not_lt.mpr (le_trans hd hw)
  rw [handleDrop_perfect s x hp h1 hd]
  refine ⟨rfl, ?_, rfl, rfl⟩
  show s.score + 20 + s.combo * 5 = s.score + (20 + 5 * s.combo)
  omega

/-- Witness for C1, spec Scenario A: the first drop of level 1 with
`absDiff = 0` yields score 20, combo 1, and a width-48 block at 50. -/
theorem perfect_drop_C1_witness :
    (handleDrop sessionA 50).blocks = [⟨48, 50, 0, true⟩] ∧
    (handleDrop sessionA 50).score = 20 ∧
    (handleDrop sessionA 50).combo = 1 ∧
    (handleDrop sessionA 50).currentBlockWidth = 48 := by
  obtain ⟨h1, h2, h3, h4⟩ := perfect_drop_C1 sessionA 50
    (by norm_num [sessionA])
    (by norm_num [sessionA, PERFECT_TOLERANCE])
    (by norm_num [absDiff, prevRef, sessionA, PERFECT_TOLERANCE])
  rw [h1, h2, h3, h4]
  norm_num [sessionA, prevRef]

/-! ## Claim C2: the Miss condition and its effect -/

/-- C2.  While Playing, the outcome is Miss exactly when
`absDiff > pendingWidth`, or `absDiff` exceeds the perfect tolerance and
`pendingWidth − absDiff < 5`; and on a Miss no block is appended and
the state becomes GameOver. -/
theorem miss_drop_C2 (s : Session) (x : ℚ) (hp : s.gameState = GameState.PLAYING) :
    (dropOutcome s x = Outcome.Miss ↔
       absDiff s x > s.currentBlockWidth ∨
         (PERFECT_TOLERANCE < absDiff s x ∧ s.currentBlockWidth - absDiff s x < 5)) ∧
    (dropOutcome s x = Outcome.Miss →
       (handleDrop s x).blocks = s.blocks ∧
       (handleDrop s x).gameState = GameState.GAME_OVER) := by
  constructor
  · unfold dropOutcome
    split_ifs with c1 c2 c3
    · exact ⟨fun _ => Or.inl c1, fun _ => rfl⟩
    · exact ⟨fun h => absurd h (by decide),
        fun h => h.elim (fun ha => absurd ha c1) (fun hb => absurd c2 (not_le.mpr hb.1))⟩
    · exact ⟨fun _ => Or.inr ⟨not_le.mp c2, c3⟩, fun _ => rfl⟩
    · exact ⟨fun h => absurd h (by decide),
        fun h => h.elim (fun ha => absurd ha c1) (fun hb => absurd hb.2 c3)⟩
  · intro hm
    by_cases c1 : absDiff s x > s.currentBlockWidth
    · rw [handleDrop_total_miss s x hp c1]
      exact ⟨rfl, rfl⟩
    · by_cases c2 : absDiff s x ≤ PERFECT_TOLERANCE
      · exact absurd hm (by unfold dropOutcome; rw [if_neg c1, if_pos c2]; decide)
      · by_cases c3 : s.currentBlockWidth - absDiff s x < 5
        · rw [handleDrop_trim_miss s x hp c1 c2 c3]
          exact ⟨rfl, rfl⟩
        · exact absurd hm (by unfold dropOutcome; rw [if_neg c1, if_neg c2, if_neg c3]; decide)

/-- Witness for C2, spec Scenario C: a drop with `absDiff = 50` against
pending width 38 is a Miss, appends nothing, and ends the game. -/
theorem miss_drop_C2_witness :
    dropOutcome sessionC 10 = Outcome.Miss ∧
    (handleDrop sessionC 10).blocks = sessionC.blocks ∧
    (handleDrop sessionC 10).gameState = GameState.GAME_OVER := by
  have h := miss_drop_C2 sessionC 10 (by norm_num [sessionC])
  have hm : dropOutcome sessionC 10 = Outcome.Miss :=
    h.1.mpr (Or.inl (by norm_num [absDiff, prevRef, sessionC]))
  exact ⟨hm, (h.2 hm).1, (h.2 hm).2⟩

/-! ## Claim C3: good (trim) drops -/

/-- C3.  A drop while Playing with `3 < absDiff ≤ pendingWidth` and
`pendingWidth − absDiff ≥ 5` is Good: the appended block has the trimmed
width `pendingWidth − absDiff` and sits exactly at the hook position,
the score grows by 10, the combo resets, and the pending width strictly
decreases. -/
theorem good_drop_C3 (s : Session) (x : ℚ)
    (hp : s.gameState = GameState.PLAYING)
    (hgt : PERFECT_TOLERANCE < absDiff s x)
    (hle : absDiff s x ≤ s.currentBlockWidth)
    (h5 : 5 ≤ s.currentBlockWidth - absDiff s x) :
    (handleDrop s x).blocks
        = s.blocks ++ [⟨s.currentBlockWidth - absDiff s x, x, s.blocks.length, false⟩] ∧
    (handleDrop s x).score = s.score + 10 ∧
    (handleDrop s x).combo = 0 ∧
    (handleDrop s x).currentBlockWidth = s.currentBlockWidth - absDiff s x ∧
    (handleDrop s x).currentBlockWidth < s.currentBlockWidth := by
  rw [handleDrop_good s x hp (not_lt.mpr hle) (not_le.mpr hgt) (not_lt.mpr h5)]
  refine ⟨rfl, rfl, rfl, rfl, ?_⟩
  show s.currentBlockWidth - absDiff s x < s.currentBlockWidth
  have h0 : (0 : ℚ) < PERFECT_TOLERANCE := by norm_num [PERFECT_TOLERANCE]
  linarith

/-- Witness for C3, spec Scenario B: a second drop with `absDiff = 10`
against pending width 48 trims to 38, scores +10 to 30, resets combo. -/
theorem good_drop_C3_witness :
    (handleDrop sessionB 60).blocks = [⟨48, 50, 0, true⟩, ⟨38, 60, 1, false⟩] ∧
    (handleDrop sessionB 60).score = 30 ∧
    (handleDrop sessionB 60).combo = 0 ∧
    (handleDrop sessionB 60).currentBlockWidth = 38 := by
  obtain ⟨h1, h2, h3, h4, -⟩ := good_drop_C3 sessionB 60
    (by norm_num [sessionB])
    (by norm_num [absDiff, prevRef, sessionB, PERFECT_TOLERANCE])
    (by norm_num [absDiff, prevRef, sessionB])
    (by norm_num [absDiff, prevRef, sessionB])
  rw [h1, h2, h3, h4]
  norm_num [sessionB, absDiff, prevRef]

/-! ## Claim C4: combo on non-Perfect outcomes -/

/-- Counterexample to C4 as stated: a total miss
(`absDiff = 50 > 48 = pendingWidth`) from a state with combo 1 ends the
game but leaves the combo at 1, not 0 — the early return at App line 115
skips the `setCombo(0)` of the trim path. -/
theorem combo_total_miss_C4_counterexample :
    dropOutcome sessionD 0 = Outcome.Miss ∧
    (handleDrop sessionD 0).gameState = GameState.GAME_OVER ∧
    (handleDrop sessionD 0).combo = 1 := by
  refine ⟨?_, ?_, ?_⟩ <;>
    norm_num [dropOutcome, handleDrop, absDiff, prevRef, sessionD, PERFECT_TOLERANCE]

/-- C4 amended: the combo resets to 0 after every non-Perfect drop that
reaches the trim logic (Good outcomes and trim misses); a total miss
(`absDiff > pendingWidth`) ends the game with the combo left unchanged. -/
theorem combo_reset_C4 (s : Session) (x : ℚ) (hp : s.gameState = GameState.PLAYING) :
    (absDiff s x > s.currentBlockWidth → (handleDrop s x).combo = s.combo) ∧
    (absDiff s x ≤ s.currentBlockWidth → PERFECT_TOLERANCE < absDiff s x →
       (handleDrop s x).combo = 0) := by
  constructor
  · intro h
    rw [handleDrop_total_miss s x hp h]
  · intro hle hgt
    unfold handleDrop
    rw [if_neg (fun hn => hn hp), if_neg (not_lt.mpr hle), if_neg (not_le.mpr hgt)]
    split_ifs with c3
    · rfl
    · rfl

/-- Witness for the amended C4: the total miss of `sessionD` keeps its
combo, and the good drop of `sessionB` resets its combo to 0. -/
theorem combo_reset_C4_witness :
    (handleDrop sessionD 0).combo = sessionD.combo ∧
    (handleDrop sessionB 60).combo = 0 := by
  constructor
  · exact (combo_reset_C4 sessionD 0 (by norm_num [sessionD])).1
      (by norm_num [absDiff, prevRef, sessionD])
  · exact (combo_reset_C4 sessionB 60 (by norm_num [sessionB])).2
      (by norm_num [absDiff, prevRef, sessionB])
      (by norm_num [absDiff, prevRef, sessionB, PERFECT_TOLERANCE])

/-! ## Claim C5: the hook oscillator clock -/

/-- C5 (code bug).  Consider a session restarted at global frame time
1000 ms (so `startTimeRef` holds 1000), level 1, no blocks placed.  The
claim says the hook position is `50 + 45·sin(elapsed·ω)` with elapsed
time 0, i.e. 50.  The code's `animate` passes the raw frame timestamp
to `updateHookPosition` without subtracting the stored start time, so
the first frame yields `50 + 45·sin(2.4) ≠ 50`: the oscillation phase is
not reset by a restart. -/
theorem hook_clock_C5_bug :
    (animateStep (some 1000) 1000 (mkLevel 0) 0).2 ≠ hookPositionSpec 1000 1000 (mkLevel 0) 0 ∧
    hookPositionSpec 1000 1000 (mkLevel 0) 0 = 50 := by
  have hspec : hookPositionSpec 1000 1000 (mkLevel 0) 0 = 50 := by
    unfold hookPositionSpec updateHookPosition
    have h0 : ((1000 : ℝ) - 1000) = 0 := by norm_num
    rw [h0, zero_mul, Real.sin_zero, zero_mul, add_zero]
  refine ⟨?_, hspec⟩
  rw [hspec]
  unfold animateStep updateHookPosition
  have harg : (1000 : ℝ) * (((mkLevel 0).baseSpeed : ℝ) * (1 + ((0 : ℕ) : ℝ) * 0.05) * 0.002)
      = 2.4 := by
    norm_num [mkLevel]
  simp only [harg]
  have hsin : 0 < Real.sin 2.4 :=
    Real.sin_pos_of_pos_of_lt_pi (by norm_num) (by linarith [Real.pi_gt_three])
  intro h
  nlinarith [hsin]

/-! ## Claim C6: AdvanceLevel at the last level -/

/-- C6 (code bug).  Advancing from the last level (index 9) wraps the
index to 0 and resets the session, but the deferred `startGame` closure
still reads the stale level-10 config, so the pending width becomes 30
(level 10's `initialWidth`) rather than level 0's 48 as the claim (and
the comment "Restart from 0") intend.  At a non-last level the advance
behaves as claimed, using the next level's config. -/
theorem advance_level_C6_bug :
    (nextLevel sessionLast).currentLevelIdx = 0 ∧
    (nextLevel sessionLast).gameState = GameState.PLAYING ∧
    (nextLevel sessionLast).blocks = [] ∧
    (nextLevel sessionLast).score = 0 ∧
    (nextLevel sessionLast).combo = 0 ∧
    (nextLevel sessionLast).currentBlockWidth = 30 ∧
    (currentLevelConfig 0).initialWidth = 48 ∧
    (nextLevel sessionLast).currentBlockWidth ≠ (currentLevelConfig 0).initialWidth ∧
    (nextLevel sessionMid).currentLevelIdx = 4 ∧
    (nextLevel sessionMid).currentBlockWidth = (currentLevelConfig 4).initialWidth ∧
    (nextLevel sessionMid).gameState = GameState.PLAYING ∧
    (nextLevel sessionMid).blocks = [] := by
  refine ⟨?_, ?_, ?_, ?_, ?_, ?_, ?_, ?_, ?_, ?_, ?_, ?_⟩ <;>
    norm_num [nextLevel, sessionLast, sessionMid, currentLevelConfig, LEVELS, MAX_LEVELS, mkLevel]

/-! ## Claim C7: reaching the block target -/

theorem placeBlock_length (s : Session) (b : Block) :
    (placeBlock s b).blocks.length = s.blocks.length + 1 := by
  simp [placeBlock]

theorem placeBlock_gameState_complete (s : Session) (b : Block)
    (h : s.blocks.length + 1 ≥ (currentLevelConfig s.currentLevelIdx).targetBlocks) :
    (placeBlock s b).gameState = GameState.LEVEL_COMPLETE := by
  show (if (s.blocks ++ [b]).length ≥ _ then _ else _) = _
  rw [if_pos (by simpa using h)]

theorem placeBlock_gameState_keep (s : Session) (b : Block)
    (h : s.blocks.length + 1 < (currentLevelConfig s.currentLevelIdx).targetBlocks) :
    (placeBlock s b).gameState = s.gameState := by
  show (if (s.blocks ++ [b]).length ≥ _ then _ else _) = _
  rw [if_neg (by simpa using not_le.mpr h)]

/-- C7.  A non-Miss drop appends exactly one block; if that brings the
stack to at least `targetBlocks` the state becomes LevelComplete (even
on a merely Good drop), otherwise it stays Playing. -/
theorem level_target_C7 (s : Session) (x : ℚ)
    (hp : s.gameState = GameState.PLAYING)
    (hnm : dropOutcome s x ≠ Outcome.Miss) :
    (handleDrop s x).blocks.length = s.blocks.length + 1 ∧
    (s.blocks.length + 1 ≥ (currentLevelConfig s.currentLevelIdx).targetBlocks →
       (handleDrop s x).gameState = GameState.LEVEL_COMPLETE) ∧
    (s.blocks.length + 1 < (currentLevelConfig s.currentLevelIdx).targetBlocks →
       (handleDrop s x).gameState = GameState.PLAYING) := by
  by_cases c1 : absDiff s x > s.currentBlockWidth
  · exact absurd (by unfold dropOutcome; rw [if_pos c1]) hnm
  · by_cases c2 : absDiff s x ≤ PERFECT_TOLERANCE
    · rw [handleDrop_perfect s x hp c1 c2]
      refine ⟨placeBlock_length _ _, fun h => ?_, fun h => ?_⟩
      · exact placeBlock_gameState_complete _ _ h
      · exact (placeBlock_gameState_keep _ _ h).trans hp
    · by_cases c3 : s.currentBlockWidth - absDiff s x < 5
      · exact absurd (by unfold dropOutcome; rw [if_neg c1, if_neg c2, if_pos c3]) hnm
      · rw [handleDrop_good s x hp c1 c2 c3]
        refine ⟨placeBlock_length _ _, fun h => ?_, fun h => ?_⟩
        · exact placeBlock_gameState_complete _ _ h
        · exact (placeBlock_gameState_keep _ _ h).trans hp

/-- Witness for C7, spec Scenario D: the seventh block of level 1
(target 7) completes the level on the spot. -/
theorem level_target_C7_witness :
    (handleDrop sessionSix 50).gameState = GameState.LEVEL_COMPLETE ∧
    (handleDrop sessionSix 50).blocks.length = 7 := by
  obtain ⟨hlen, hcomp, -⟩ := level_target_C7 sessionSix 50
    (by norm_num [sessionSix])
    (by norm_num [dropOutcome, absDiff, prevRef, sessionSix, PERFECT_TOLERANCE]; decide)
  constructor
  · exact hcomp (by norm_num [sessionSix, currentLevelConfig, LEVELS, MAX_LEVELS, mkLevel])
  · rw [hlen]
    norm_num [sessionSix]

/-! ## Claim C8: the star rating -/

/-- C8.  The star rating is 0 exactly in GameOver; otherwise it is 3, 2
or 1 strictly by the perfect ratio thresholds 0.6 and 0.3; and it
depends only on the game state, perfect count and stack length, hence is
invariant to the order of perfect vs. non-perfect drops. -/
theorem stars_C8 (s t : Session)
    (hst : t.gameState = s.gameState)
    (hc : perfectCount t = perfectCount s)
    (hl : t.blocks.length = s.blocks.length) :
    (calculateStars s = 0 ↔ s.gameState = GameState.GAME_OVER) ∧
    (s.gameState ≠ GameState.GAME_OVER →
       ((0.6 ≤ (perfectCount s : ℚ) / (s.blocks.length : ℚ) → calculateStars s = 3) ∧
        ((perfectCount s : ℚ) / (s.blocks.length : ℚ) < 0.6 →
           0.3 ≤ (perfectCount s : ℚ) / (s.blocks.length : ℚ) → calculateStars s = 2) ∧
        ((perfectCount s : ℚ) / (s.blocks.length : ℚ) < 0.3 → calculateStars s = 1))) ∧
    calculateStars t = calculateStars s := by
  refine ⟨?_, ?_, ?_⟩
  · unfold calculateStars
    split_ifs with h1 h2 h3 <;> simp [h1]
  · intro hgo
    unfold calculateStars
    rw [if_neg hgo]
    refine ⟨fun h => ?_, fun hlt hge => ?_, fun hlt => ?_⟩
    · rw [if_pos (by exact h)]
    · rw [if_neg (not_le.mpr hlt), if_pos (by exact hge)]
    · rw [if_neg (not_le.mpr (lt_trans hlt (by norm_num))), if_neg (not_le.mpr hlt)]
  · unfold calculateStars
    rw [hst, hc, hl]

/-- Witness for C8: two completed two-block levels with one perfect
drop each — perfect-then-good and good-then-perfect — both rate 2. -/
theorem stars_C8_witness :
    calculateStars sessionPG = 2 ∧ calculateStars sessionGP = calculateStars sessionPG := by
  have h := stars_C8 sessionPG sessionGP rfl rfl rfl
  refine ⟨?_, h.2.2⟩
  refine ((h.2.1 (by decide)).2.1 ?_ ?_) <;>
  · rw [show perfectCount sessionPG = 1 from rfl, show sessionPG.blocks.length = 2 from rfl]
    norm_num

/-! ## Claim C9: score monotonicity -/

theorem score_le_handleDrop (s : Session) (x : ℚ) : s.score ≤ (handleDrop s x).score := by
  unfold handleDrop
  split_ifs with g c1 c2 c3
  · exact le_refl _
  · exact le_refl _
  · show s.score ≤ s.score + 20 + s.combo * 5
    omega
  · exact le_refl _
  · show s.score ≤ s.score + 10
    omega

theorem score_le_foldl (s : Session) (xs : List ℚ) : s.score ≤ (xs.foldl handleDrop s).score := by
  induction xs generalizing s with
  | nil => exact le_refl _
  | cons x xs ih => exact le_trans (score_le_handleDrop s x) (ih (handleDrop s x))

/-- C9.  While Playing a drop changes the score by exactly
`20 + 5·combo` on Perfect, `10` on Good and `0` on Miss; every drop's
score delta is non-negative, so the score is non-decreasing along every
sequence of drops. -/
theorem score_monotone_C9 (s : Session) (x : ℚ) (xs : List ℚ) :
    (s.gameState = GameState.PLAYING →
       ((dropOutcome s x = Outcome.Perfect →
           (handleDrop s x).score = s.score + (20 + 5 * s.combo)) ∧
        (dropOutcome s x = Outcome.Good → (handleDrop s x).score = s.score + 10) ∧
        (dropOutcome s x = Outcome.Miss → (handleDrop s x).score = s.score))) ∧
    s.score ≤ (handleDrop s x).score ∧
    s.score ≤ (xs.foldl handleDrop s).score := by
  refine ⟨fun hp => ⟨?_, ?_, ?_⟩, score_le_handleDrop s x, score_le_foldl s xs⟩
  all_goals intro ho
  all_goals unfold dropOutcome at ho
  all_goals split_ifs at ho with c1 c2 c3
  · rw [handleDrop_perfect s x hp c1 c2]
    show s.score + 20 + s.combo * 5 = s.score + (20 + 5 * s.combo)
    omega
  · rw [handleDrop_good s x hp c1 c2 c3]
    rfl
  · rw [handleDrop_total_miss s x hp c1]
  · rw [handleDrop_trim_miss s x hp c1 c2 c3]

/-- Witness for C9: on the fresh level-1 session, a perfect then a good
drop raise the score by 20 and then 10, and a fold over both drops never
decreases it. -/
theorem score_monotone_C9_witness :
    (handleDrop sessionA 50).score = 20 ∧
    sessionA.score ≤ (List.foldl handleDrop sessionA [50, 60]).score := by
  have h := score_monotone_C9 sessionA 50 [50, 60]
  refine ⟨?_, h.2.2⟩
  have hperf := (h.1 (by norm_num [sessionA])).1
    (by norm_num [dropOutcome, absDiff, prevRef, sessionA, PERFECT_TOLERANCE])
  rw [hperf]
  norm_num [sessionA]

/-! ## Claim C10: reachable-stack invariants -/

theorem mkLevel_initialWidth_ge (j : ℕ) : (20 : ℚ) ≤ (mkLevel j).initialWidth :=
  le_max_left _ _

theorem currentLevelConfig_initialWidth_ge (i : ℕ) :
    (20 : ℚ) ≤ (currentLevelConfig i).initialWidth := by
  unfold currentLevelConfig
  rw [List.getD_eq_getElem?_getD]
  rcases hlt : LEVELS[i]? with _ | c
  · exact mkLevel_initialWidth_ge 0
  · have hc : c ∈ LEVELS := List.getElem?_mem hlt
    obtain ⟨j, hj, rfl⟩ := List.mem_map.mp hc
    exact mkLevel_initialWidth_ge j

theorem placeBlock_inv (s : Session) (b : Block)
    (ihAll : ∀ c ∈ s.blocks, (5 : ℚ) ≤ c.width)
    (ihChain : List.Chain' (fun a c => c.width ≤ a.width) s.blocks)
    (ihLast : ∀ c, s.blocks.getLast? = some c → s.currentBlockWidth = c.width)
    (hb5 : (5 : ℚ) ≤ b.width)
    (hble : b.width ≤ s.currentBlockWidth) :
    (∀ c ∈ (placeBlock s b).blocks, (5 : ℚ) ≤ c.width) ∧
    List.Chain' (fun a c => c.width ≤ a.width) (placeBlock s b).blocks ∧
    (5 : ℚ) ≤ (placeBlock s b).currentBlockWidth ∧
    ((placeBlock s b).blocks = [] → (20 : ℚ) ≤ (placeBlock s b).currentBlockWidth) ∧
    (∀ c, (placeBlock s b).blocks.getLast? = some c →
       (placeBlock s b).currentBlockWidth = c.width) := by
  have hbl : (placeBlock s b).blocks = s.blocks ++ [b] := rfl
  have hbw : (placeBlock s b).currentBlockWidth = b.width := rfl
  refine ⟨?_, ?_, ?_, ?_, ?_⟩
  · rw [hbl]
    intro c hc
    rcases List.mem_append.mp hc with hc | hc
    · exact ihAll c hc
    · rw [List.mem_singleton.mp hc]
      exact hb5
  · rw [hbl]
    apply List.chain'_append.mpr
    refine ⟨ihChain, List.chain'_singleton b, ?_⟩
    intro a ha c hc
    rw [Option.mem_def] at ha hc
    have hc' : b = c := by simpa using hc
    subst hc'
    rw [← ihLast a ha]
    exact hble
  · rw [hbw]
    exact hb5
  · rw [hbl]
    intro h
    exact absurd h (by simp)
  · rw [hbl, hbw]
    intro c hc
    rw [List.getLast?_concat] at hc
    rw [Option.some_inj.mp hc]

/-- C10 amended.  In every reachable session state all stacked blocks
have width ≥ 5, widths are non-increasing from bottom to top, the
pending width is ≥ 5 and equals the top block's width when the stack is
nonempty; when the stack is empty the pending width is the initial
width read at the last reset, which is ≥ 20 (after a wrapping
AdvanceLevel it is the previous level's initial width, not necessarily
the current level's). -/
theorem stack_invariant_C10 (s : Session) (h : Reachable s) :
    (∀ b ∈ s.blocks, (5 : ℚ) ≤ b.width) ∧
    List.Chain' (fun a b => b.width ≤ a.width) s.blocks ∧
    (5 : ℚ) ≤ s.currentBlockWidth ∧
    (s.blocks = [] → (20 : ℚ) ≤ s.currentBlockWidth) ∧
    (∀ b, s.blocks.getLast? = some b → s.currentBlockWidth = b.width) := by
  induction h with
  | start s0 =>
      refine ⟨by simp [startGame], by simp [startGame], ?_, fun _ => ?_, by simp [startGame]⟩
      · exact le_trans (by norm_num) (currentLevelConfig_initialWidth_ge _)
      · exact currentLevelConfig_initialWidth_ge _
  | next s0 h0 ih =>
      unfold nextLevel
      split_ifs with hlt
      all_goals refine ⟨by simp, by simp, ?_, fun _ => ?_, by simp⟩
      · exact le_trans (by norm_num) (currentLevelConfig_initialWidth_ge _)
      · exact currentLevelConfig_initialWidth_ge _
      · exact le_trans (by norm_num) (currentLevelConfig_initialWidth_ge _)
      · exact currentLevelConfig_initialWidth_ge _
  | drop s0 x h0 ih =>
      obtain ⟨ihAll, ihChain, ihW, ihEmpty, ihLast⟩ := ih
      by_cases g : s0.gameState = GameState.PLAYING
      case neg =>
        rw [handleDrop_not_playing s0 x g]
        exact ⟨ihAll, ihChain, ihW, ihEmpty, ihLast⟩
      by_cases c1 : absDiff s0 x > s0.currentBlockWidth
      · rw [handleDrop_total_miss s0 x g c1]
        exact ⟨ihAll, ihChain, ihW, ihEmpty, ihLast⟩
      · by_cases c2 : absDiff s0 x ≤ PERFECT_TOLERANCE
        · rw [handleDrop_perfect s0 x g c1 c2]
          exact placeBlock_inv _ _ ihAll ihChain ihLast ihW (le_refl _)
        · by_cases c3 : s0.currentBlockWidth - absDiff s0 x < 5
          · rw [handleDrop_trim_miss s0 x g c1 c2 c3]
            exact ⟨ihAll, ihChain, ihW, ihEmpty, ihLast⟩
          · rw [handleDrop_good s0 x g c1 c2 c3]
            exact placeBlock_inv _ _ ihAll ihChain ihLast (not_lt.mp c3)
              (sub_le_self _ (abs_nonneg _))

/-- Witness for the amended C10: the freshly started level-1 session
satisfies the invariant, with pending width 48 ≥ 20. -/
theorem stack_invariant_C10_witness :
    (5 : ℚ) ≤ (startGame sessionMenu).currentBlockWidth ∧
    ((startGame sessionMenu).blocks = [] → (20 : ℚ) ≤ (startGame sessionMenu).currentBlockWidth) := by
  have h := stack_invariant_C10 (startGame sessionMenu) (Reachable.start sessionMenu)
  exact ⟨h.2.2.1, h.2.2.2.1⟩

/-- Counterexample to C10 as stated: after a wrapping `AdvanceLevel`
from the last level, the stack is empty but the pending width is 30
(the stale last level's initial width), not the current level's
`initialWidth` 48. -/
theorem stack_invariant_C10_counterexample :
    Reachable (nextLevel (startGame sessionMenuLast)) ∧
    (nextLevel (startGame sessionMenuLast)).blocks = [] ∧
    (nextLevel (startGame sessionMenuLast)).currentBlockWidth = 30 ∧
    (currentLevelConfig (nextLevel (startGame sessionMenuLast)).currentLevelIdx).initialWidth
      = 48 ∧
    (nextLevel (startGame sessionMenuLast)).currentBlockWidth ≠
      (currentLevelConfig (nextLevel (startGame sessionMenuLast)).currentLevelIdx).initialWidth := by
  refine ⟨Reachable.next _ (Reachable.start _), ?_, ?_, ?_, ?_⟩ <;>
    norm_num [nextLevel, startGame, sessionMenuLast, currentLevelConfig, LEVELS, MAX_LEVELS,
      mkLevel]

end Neboskreb
